import Mathlib

/-!
# Verification of the vixcpp/websocket real-time messaging module

A shallow embedding, in Lean 4, of the components of the `vixcpp/websocket`
repository that the specification's testable properties talk about:

* the JSON envelope codec (`include/vix/websocket/protocol.hpp`):
  `vix::json::token` / `kvs` payloads, `JsonMessage::parse` and
  `JsonMessage::serialize`;
* the durable message store (`src/SqliteMessageStore.cpp`): `generate_id`,
  `append` (INSERT OR REPLACE), `list_by_room`;
* the long-polling layer (`include/vix/websocket/LongPolling.hpp`,
  `src/LongPolling.cpp`): bounded per-session FIFO buffers with drop-head,
  `last_seen` touching, the manager's `push_to` / `poll`;
* the HTTP `GET /ws/poll` route of the advanced example server
  (`examples/advanced/src/server.cpp`), together with its query-string
  helper and the `std::stoul` fallback;
* the WebSocket configuration loader (`src/config.cpp`);
* the per-connection `Session` write path (`src/session.cpp`) as a small
  transition system over the tasks it posts to the shared executor.

Modelling conventions:

* machine integers (`std::size_t`, microsecond counts, …) are `Nat` / `Int`
  with explicit bounds where overflow matters;
* `nlohmann::json` values are modelled as a tree type `njson`; objects are
  kept as key-sorted association lists, mirroring the `std::map` that
  (non-ordered) `nlohmann::json` uses, so `obj[key] = v` is a sorted
  insert-or-assign and iteration order is ascending key order.  The textual
  `dump()` / `parse()` pair of nlohmann is treated as the identity on such
  trees;
* C++ `std::string` comparison (byte-wise `operator<`) is modelled on the
  underlying character lists; on the ASCII strings appearing here this
  agrees with UTF-8 byte order;
* wall-clock reads (`system_clock`, `steady_clock`) are threaded through as
  explicit `Nat` parameters.
-/

/-! ## `vix::json::token` and `kvs` (flat ordered key/value payloads)

`vix::json::token` is a variant over `{monostate, bool, long long, double,
std::string, shared_ptr<array_t>, shared_ptr<kvs>}`; a `kvs` holds a flat
vector of tokens alternating key, value.  A `double` is kept opaque as its
IEEE-754 bit pattern (`dblV bits`); null `shared_ptr` array/kvs values (which
the serializer renders as JSON null) are not representable and do not arise
from the payload-building API. -/

inductive Token where
  | null : Token
  | boolV (b : Bool) : Token
  | intV (n : Int) : Token
  | dblV (bits : Nat) : Token
  | strV (s : String) : Token
  | arrV (elems : List Token) : Token
  | kvsV (flat : List Token) : Token

/-- The `nlohmann::json` value tree.  Objects are association lists kept
sorted by key, the order `std::map` iterates in. -/
inductive njson where
  | null : njson
  | boolJ (b : Bool) : njson
  | intJ (n : Int) : njson
  | dblJ (bits : Nat) : njson
  | strJ (s : String) : njson
  | arrJ (elems : List njson) : njson
  | objJ (fields : List (String × njson)) : njson

/-- Byte-wise `std::string` `operator<` on the character lists (also the
`std::less<std::string>` comparator of `std::map` and SQLite's BINARY
collation). -/
def charListLt : List Char → List Char → Bool
  | [], [] => false
  | [], _ :: _ => true
  | _ :: _, [] => false
  | a :: as, b :: bs =>
    if a.toNat < b.toNat then true
    else if b.toNat < a.toNat then false
    else charListLt as bs

/-- Lexicographic `std::string` comparison on `String`. -/
def cppStrLt (a b : String) : Bool := charListLt a.data b.data

/-- `obj[key] = v` on a key-sorted association list: insert-or-assign,
preserving ascending key order (the behaviour of `std::map::operator[]`
under `std::less<std::string>`). -/
def objInsert : List (String × njson) → String → njson → List (String × njson)
  | [], k, v => [(k, v)]
  | (k', v') :: rest, k, v =>
    if cppStrLt k k' then (k, v) :: (k', v') :: rest
    else if k = k' then (k, v) :: rest
    else (k', v') :: objInsert rest k v

/-- `std::map::find` on the association list (first matching key). -/
def objLookup : List (String × njson) → String → Option njson
  | [], _ => none
  | (k', v') :: rest, k => if k' = k then some v' else objLookup rest k

mutual
/-- `detail::ws_token_to_nlohmann` from `protocol.hpp`: converts one payload
token to a JSON value.  Arrays and nested kvs recurse. -/
def wsTokenToNlohmann : Token → njson
  | Token.null => njson.null
  | Token.boolV b => njson.boolJ b
  | Token.intV n => njson.intJ n
  | Token.dblV d => njson.dblJ d
  | Token.strV s => njson.strJ s
  | Token.arrV elems => njson.arrJ (wsTokenListToNlohmann elems)
  | Token.kvsV flat => njson.objJ (wsKvsFlat [] flat)

/-- Element-wise conversion of an array payload (`j.push_back` loop). -/
def wsTokenListToNlohmann : List Token → List njson
  | [] => []
  | t :: ts => wsTokenToNlohmann t :: wsTokenListToNlohmann ts

/-- The pair loop of `detail::ws_kvs_to_nlohmann`: walks the flat kvs list
two tokens at a time (`n = size - size % 2` drops a dangling trailing key),
skips pairs whose key is not a string, and performs `obj[key] = value` for
the rest.  `acc` is the object built so far. -/
def wsKvsFlat (acc : List (String × njson)) : List Token → List (String × njson)
  | k :: v :: rest =>
    match k with
    | Token.strV key => wsKvsFlat (objInsert acc key (wsTokenToNlohmann v)) rest
    | _ => wsKvsFlat acc rest
  | _ => acc
end

/-- `detail::ws_kvs_to_nlohmann`: a flat kvs payload as a JSON object. -/
def wsKvsToNlohmann (flat : List Token) : njson :=
  njson.objJ (wsKvsFlat [] flat)

/-- One value conversion step of `detail::nlohmann_payload_to_kvs`: the
`is_string / is_boolean / is_number_integer / is_number_float / is_null`
chain; arrays and objects fall into the final `else` and become the
`monostate` placeholder (`Token.null`). -/
def payloadValToken : njson → Token
  | njson.strJ s => Token.strV s
  | njson.boolJ b => Token.boolV b
  | njson.intJ n => Token.intV n
  | njson.dblJ d => Token.dblV d
  | njson.null => Token.null
  | _ => Token.null

/-- The iteration loop of `detail::nlohmann_payload_to_kvs`: for each object
entry emit the key token then the converted value token. -/
def payloadFields : List (String × njson) → List Token
  | [] => []
  | (key, val) :: rest => Token.strV key :: payloadValToken val :: payloadFields rest

/-- `detail::nlohmann_payload_to_kvs`: a JSON payload back to a flat kvs
list; non-objects yield the empty kvs. -/
def nlohmannPayloadToKvs : njson → List Token
  | njson.objJ fields => payloadFields fields
  | _ => []

/-! ## The `JsonMessage` envelope (`protocol.hpp`) -/

/-- `vix::websocket::JsonMessage`: the protocol envelope.  All string fields
default to empty, `payload` to the empty flat kvs, exactly as the
default-constructed C++ struct. -/
structure JsonMessage where
  id : String := ""
  kind : String := ""
  ts : String := ""
  room : String := ""
  type : String := ""
  payload : List Token := []

/-- `j.value(key, std::string{})` on an object's field list: a missing key
yields the empty-string default, a present string field yields its value,
and a present non-string field makes `get<std::string>` throw
(`none` here, which `parse`'s catch-all turns into parse failure). -/
def jsonValueString (fields : List (String × njson)) (key : String) : Option String :=
  match objLookup fields key with
  | none => some ""
  | some (njson.strJ s) => some s
  | some _ => none

/-- `JsonMessage::parse` at the JSON-tree level (the text has already been
read by `nlohmann::json::parse`; the dump/parse pair is the identity on
trees).  Non-objects and any thrown `type_error` give `none`; an empty
`type` after decoding gives `none` (envelope-invalid). -/
def JsonMessage.parseTree (j : njson) : Option JsonMessage :=
  match j with
  | njson.objJ fields =>
    match jsonValueString fields "id" with
    | none => none
    | some i =>
      match jsonValueString fields "kind" with
      | none => none
      | some kd =>
        match jsonValueString fields "ts" with
        | none => none
        | some t =>
          match jsonValueString fields "room" with
          | none => none
          | some rm =>
            match jsonValueString fields "type" with
            | none => none
            | some ty =>
              let pl : List Token :=
                match objLookup fields "payload" with
                | some pj => nlohmannPayloadToKvs pj
                | none => []
              if ty = "" then none
              else some { id := i, kind := kd, ts := t, room := rm, type := ty, payload := pl }
  | _ => none

/-- `JsonMessage::serialize` at the JSON-tree level: emit `id`, `kind`,
`ts`, `room` only when non-empty, then always `type` and `payload`.  Each
`j[...] = v` is a sorted insert-or-assign into the object. -/
def JsonMessage.serializeTree (m : JsonMessage) : njson :=
  let payloadJson := wsKvsToNlohmann m.payload
  let f0 : List (String × njson) := []
  let f1 := if m.id = "" then f0 else objInsert f0 "id" (njson.strJ m.id)
  let f2 := if m.kind = "" then f1 else objInsert f1 "kind" (njson.strJ m.kind)
  let f3 := if m.ts = "" then f2 else objInsert f2 "ts" (njson.strJ m.ts)
  let f4 := if m.room = "" then f3 else objInsert f3 "room" (njson.strJ m.room)
  let f5 := objInsert f4 "type" (njson.strJ m.type)
  njson.objJ (objInsert f5 "payload" payloadJson)

/-! ## Id generation and C++ string order (`SqliteMessageStore.cpp`) -/

/-- Big-endian base-10 digits of `n`, fixed width `k` (leading zeros kept).
For `n < 10^k` these are exactly the digits `std::ostringstream` prints
under `setw(k)` / `setfill('0')`; `setw` is only a minimum width, so the
model is faithful on that range (microsecond counts stay below `10^20`
until far beyond any representable date). -/
def digitsOf : Nat → Nat → List Nat
  | 0, _ => []
  | k + 1, n => n / 10 ^ k :: digitsOf k (n % 10 ^ k)

/-- The character `'0' + d`. -/
def digitChar (d : Nat) : Char := Char.ofNat (48 + d)

/-- `SqliteMessageStore::generate_id`: the system-clock microsecond count,
zero-padded to 20 characters.  The clock read is the explicit `micros`
argument. -/
def generate_id (micros : Nat) : String :=
  String.mk ((digitsOf 20 micros).map digitChar)

/-! ## The SQLite message store (`SqliteMessageStore.cpp`) -/

/-- One row of `messages(id PRIMARY KEY, kind NOT NULL, room, type NOT NULL,
ts NOT NULL, payload_json NOT NULL)`.  `room` is `none` when the column is
NULL; `payload_json` holds the JSON tree whose `dump()` text is stored. -/
structure Row where
  id : String
  kind : String
  room : Option String
  type : String
  ts : String
  payload_json : njson

/-- The normalisation `append` performs before binding: assign
`generate_id` when `id` is empty, the formatted current UTC time (threaded
in as `tsNow`) when `ts` is empty, `"event"` when `kind` is empty; an empty
`room` is bound as NULL; `payload` is serialised to its JSON text. -/
def appendRow (msg : JsonMessage) (micros : Nat) (tsNow : String) : Row :=
  { id := if msg.id = "" then generate_id micros else msg.id
    kind := if msg.kind = "" then "event" else msg.kind
    room := if msg.room = "" then none else some msg.room
    type := msg.type
    ts := if msg.ts = "" then tsNow else msg.ts
    payload_json := wsKvsToNlohmann msg.payload }

/-- `INSERT OR REPLACE` on the `id` primary key: any existing row with the
same id is replaced by the new row; SQLite resolves the uniqueness conflict
itself and `sqlite3_step` returns `SQLITE_DONE`, so `sqlite_check` passes
and no error is raised. -/
def insertOrReplace (rows : List Row) (r : Row) : List Row :=
  rows.filter (fun q => q.id ≠ r.id) ++ [r]

/-- `SqliteMessageStore::append`: normalise, then `INSERT OR REPLACE`. -/
def SqliteMessageStore.append (rows : List Row) (msg : JsonMessage) (micros : Nat)
    (tsNow : String) : List Row :=
  insertOrReplace rows (appendRow msg micros tsNow)

/-- Row to envelope, as the `SELECT` loops rebuild it: NULL `room` stays the
empty string; the stored payload text is parsed back to a flat kvs (at the
tree level this is `nlohmann_payload_to_kvs`; an unparsable payload would
give the empty kvs, which non-object trees also give). -/
def rowToMessage (r : Row) : JsonMessage :=
  { id := r.id, kind := r.kind, ts := r.ts, room := r.room.getD "",
    type := r.type, payload := nlohmannPayloadToKvs r.payload_json }

/-- Insert a row into a list kept sorted by descending id (`ORDER BY id
DESC` under BINARY collation). -/
def insertDescById (r : Row) : List Row → List Row
  | [] => [r]
  | q :: rest => if cppStrLt q.id r.id then r :: q :: rest else q :: insertDescById r rest

/-- `ORDER BY id DESC` over a row multiset. -/
def sortByIdDesc (rows : List Row) : List Row := rows.foldr insertDescById []

/-- `SqliteMessageStore::list_by_room`: rows of the room (NULL never equals
a parameter, so only rows stored with a non-NULL matching `room` qualify),
optionally restricted to `id < before_id`, newest first, at most `limit`;
`limit = 0` short-circuits to the empty list. -/
def list_by_room (rows : List Row) (room : String) (limit : Nat)
    (before_id : Option String) : List JsonMessage :=
  if limit = 0 then []
  else
    let sel := rows.filter (fun r =>
      r.room == some room &&
        match before_id with
        | some b => cppStrLt r.id b
        | none => true)
    ((sortByIdDesc sel).take limit).map rowToMessage

/-! ## The `chat.join` history replay (`examples/advanced/src/server.cpp`) -/

/-- `HISTORY_LIMIT` of the advanced example server. -/
def HISTORY_LIMIT : Nat := 50

/-- The envelopes the `chat.join` handler sends to the joining session: each
history row is re-tagged `kind = "history"` only when its stored kind is
empty, then serialised and sent. -/
def chatJoinSentHistory (rows : List Row) (room : String) : List JsonMessage :=
  (list_by_room rows room HISTORY_LIMIT none).map
    (fun msg => if msg.kind = "" then { msg with kind := "history" } else msg)

/-! ## Long-polling sessions and manager (`LongPolling.hpp` / `.cpp`) -/

/-- `LongPollingSession`: id, `last_seen` (a `steady_clock` read, threaded
as `Nat`), and the FIFO deque of buffered envelopes. -/
structure LongPollingSession where
  id : String
  lastSeen : Nat
  buffer : List JsonMessage

/-- The buffer mutation of `LongPollingSession::enqueue`: `push_back`, then
one `pop_front` when the size exceeds `maxBufferSize` (drop-head). -/
def bufEnqueue (buffer : List JsonMessage) (msg : JsonMessage)
    (maxBufferSize : Nat) : List JsonMessage :=
  let b := buffer ++ [msg]
  if maxBufferSize < b.length then b.drop 1 else b

/-- `LongPollingSession::enqueue`: buffer mutation followed by `touch()`
(the current `steady_clock` read is `now`). -/
def LongPollingSession.enqueue (s : LongPollingSession) (msg : JsonMessage)
    (maxBufferSize now : Nat) : LongPollingSession :=
  { s with buffer := bufEnqueue s.buffer msg maxBufferSize, lastSeen := now }

/-- `LongPollingSession::drain`: with `maxCount = 0` or an empty buffer it
returns immediately — without `touch()` — leaving the session unchanged;
otherwise it pops `min maxCount size` oldest envelopes in FIFO order and
touches `last_seen`. -/
def LongPollingSession.drain (s : LongPollingSession) (maxCount now : Nat) :
    List JsonMessage × LongPollingSession :=
  if maxCount = 0 || s.buffer.isEmpty then ([], s)
  else
    let n := min maxCount s.buffer.length
    (s.buffer.take n, { s with buffer := s.buffer.drop n, lastSeen := now })

/-- Sequential enqueues (each with its own clock read), no drain between. -/
def enqueueAll (s : LongPollingSession) (maxBufferSize : Nat) :
    List (JsonMessage × Nat) → LongPollingSession
  | [] => s
  | (m, t) :: rest => enqueueAll (s.enqueue m maxBufferSize t) maxBufferSize rest

/-- `LongPollingManager` state: TTL, per-session capacity, and the
`unordered_map` of sessions as an association list. -/
structure LongPollingManager where
  sessionTtl : Nat
  maxBufferPerSession : Nat
  sessions : List (String × LongPollingSession)

/-- `sessions_.find(sessionId)`. -/
def findSession (m : LongPollingManager) (sid : String) : Option LongPollingSession :=
  (m.sessions.find? (fun p => p.1 == sid)).map Prod.snd

/-- Store an updated (or freshly created) session under its id. -/
def setSession : List (String × LongPollingSession) → String → LongPollingSession →
    List (String × LongPollingSession)
  | [], sid, s => [(sid, s)]
  | (k, v) :: rest, sid, s =>
    if k = sid then (sid, s) :: rest else (k, v) :: setSession rest sid s

/-- The session `get_or_create_unlocked` returns: the stored one, or a fresh
`LongPollingSession{sessionId}` whose constructor sets `last_seen` to the
current `steady_clock` read and an empty buffer. -/
def getOrCreate (m : LongPollingManager) (sid : String) (now : Nat) : LongPollingSession :=
  (findSession m sid).getD { id := sid, lastSeen := now, buffer := [] }

/-- `LongPollingManager::push_to`: get-or-create, then enqueue with the
manager's per-session capacity. -/
def LongPollingManager.push_to (m : LongPollingManager) (sid : String)
    (msg : JsonMessage) (now : Nat) : LongPollingManager :=
  let s := getOrCreate m sid now
  { m with sessions := setSession m.sessions sid (s.enqueue msg m.maxBufferPerSession now) }

/-- `LongPollingManager::poll`: a missing session is created (empty) only
when `createIfMissing`; an existing session is drained up to `maxMessages`.
`LongPollingBridge::poll` forwards here unchanged. -/
def LongPollingManager.poll (m : LongPollingManager) (sid : String)
    (maxMessages : Nat) (createIfMissing : Bool) (now : Nat) :
    List JsonMessage × LongPollingManager :=
  match findSession m sid with
  | none =>
    if !createIfMissing then ([], m)
    else
      let s : LongPollingSession := { id := sid, lastSeen := now, buffer := [] }
      let (out, s') := s.drain maxMessages now
      (out, { m with sessions := setSession m.sessions sid s' })
  | some s =>
    let (out, s') := s.drain maxMessages now
    (out, { m with sessions := setSession m.sessions sid s' })

/-! ## The `GET /ws/poll` route (`examples/advanced/src/server.cpp`) -/

/-- The characters after the first `'?'` of the request target
(`target.find('?')` / `substr(pos + 1)`); `none` when there is none. -/
def afterFirstQM : List Char → Option (List Char)
  | [] => none
  | c :: rest => if c = '?' then some rest else afterFirstQM rest

/-- Split the query on `'&'` (the `find('&', start)` loop; a trailing or
empty fragment is produced as an empty part, which the `'='` test below
discards exactly as the C++ loop skips it). -/
def splitOnAmp : List Char → List (List Char)
  | [] => [[]]
  | c :: rest =>
    if c = '&' then [] :: splitOnAmp rest
    else
      match splitOnAmp rest with
      | [] => [[c]]
      | p :: ps => (c :: p) :: ps

/-- Split a `k=v` part at its first `'='`; `none` when there is no `'='`
(the part is skipped). -/
def splitFirstEq : List Char → Option (List Char × List Char)
  | [] => none
  | c :: rest =>
    if c = '=' then some ([], rest)
    else
      match splitFirstEq rest with
      | none => none
      | some (k, v) => some (c :: k, v)

/-- The example server's `get_query_param` helper: first `k=v` pair of the
query string whose key matches, value returned verbatim. -/
def getQueryParam (target key : String) : Option String :=
  match afterFirstQM target.data with
  | none => none
  | some query =>
    (splitOnAmp query).findSome? (fun part =>
      match splitFirstEq part with
      | none => none
      | some (k, v) => if String.mk k = key then some (String.mk v) else none)

/-- `std::isspace` characters skipped by `strtoul`. -/
def isSpaceChar (c : Char) : Bool :=
  c == ' ' || c == '\t' || c == '\n' || c == '\x0b' || c == '\x0c' || c == '\r'

/-- `std::stoul(s)` (base 10, 64-bit `unsigned long`): skip whitespace, an
optional sign, then demand at least one digit (`invalid_argument`
otherwise, modelled `none`); trailing garbage is ignored; a magnitude
beyond the `unsigned long` range throws `out_of_range` (`none`); a negative
in-range value wraps modulo `2^64`. -/
def stoulOpt (s : String) : Option Nat :=
  let cs := s.data.dropWhile isSpaceChar
  let signAndRest : Bool × List Char :=
    match cs with
    | '-' :: r => (true, r)
    | '+' :: r => (false, r)
    | r => (false, r)
  let digits := signAndRest.2.takeWhile Char.isDigit
  if digits.isEmpty then none
  else
    let v := digits.foldl (fun a c => a * 10 + (c.toNat - 48)) 0
    if 2 ^ 64 ≤ v then none
    else some (if signAndRest.1 then (2 ^ 64 - v) % 2 ^ 64 else v)

/-- Modelled from the spec: `json_messages_to_nlohmann_array` (declared by
the HTTP facade but defined outside this repository snapshot) serialises
each drained envelope and collects them into a JSON array — "200, JSON
array of envelopes". -/
def json_messages_to_nlohmann_array (msgs : List JsonMessage) : njson :=
  njson.arrJ (msgs.map JsonMessage.serializeTree)

/-- An HTTP response as the route handlers build it: a status code and the
JSON body handed to `res.json`. -/
structure HttpResponse where
  status : Nat
  body : njson

/-- The `maxMessages` value the `GET /ws/poll` route uses: 50 unless a
`max` query parameter is present and `std::stoul` succeeds on it (any
`std::stoul` exception keeps the default 50). -/
def wsPollMax (target : String) : Nat :=
  match getQueryParam target "max" with
  | none => 50
  | some maxStr =>
    match stoulOpt maxStr with
    | none => 50
    | some v => v

/-- The `GET /ws/poll` lambda of the advanced example server: a missing or
empty `session_id` query parameter gives
`400 {"error":"missing_session_id"}`; otherwise `max` is read with a
`std::stoul` fallback to 50, the bridge is polled (`createIfMissing =
true`), and the drained envelopes are returned as a 200 JSON array. -/
def wsPollRoute (target : String) (mgr : LongPollingManager) (now : Nat) :
    HttpResponse × LongPollingManager :=
  match getQueryParam target "session_id" with
  | none =>
    ({ status := 400, body := njson.objJ [("error", njson.strJ "missing_session_id")] }, mgr)
  | some sid =>
    if sid = "" then
      ({ status := 400, body := njson.objJ [("error", njson.strJ "missing_session_id")] }, mgr)
    else
      let (msgs, mgr') := mgr.poll sid (wsPollMax target) true now
      ({ status := 200, body := json_messages_to_nlohmann_array msgs }, mgr')

/-! ## The configuration loader (`src/config.cpp`) -/

/-- The core `vix::config::Config` contract the loader relies on: key
presence, and `getInt` / `getBool` with caller-supplied defaults.  It is an
external collaborator, so it is kept abstract as three functions. -/
structure CoreConfig where
  has : String → Bool
  getInt : String → Int → Int
  getBool : String → Bool → Bool

/-- `vix::websocket::Config` with its default member initialisers.  Sizes
and durations are carried as mathematical integers (`std::size_t` casts in
`from_core` are applied to values already forced `≥ 1024` resp. `≥ 5`, so
they do not wrap). -/
structure WSConfig where
  maxMessageSize : Int := 65536
  idleTimeout : Int := 60
  enablePerMessageDeflate : Bool := true
  autoPingPong : Bool := true
  pingInterval : Int := 30

/-- `Config::from_core`: each optional key overrides its default;
`max_message_size` is clamped to at least 1024 bytes, `idle_timeout` to at
least 5 seconds, `ping_interval` non-positive becomes 0. -/
def Config.from_core (core : CoreConfig) : WSConfig :=
  let cfg : WSConfig := {}
  let cfg :=
    if core.has "websocket.max_message_size" then
      { cfg with
        maxMessageSize := max 1024 (core.getInt "websocket.max_message_size" cfg.maxMessageSize) }
    else cfg
  let cfg :=
    if core.has "websocket.idle_timeout" then
      { cfg with
        idleTimeout := max 5 (core.getInt "websocket.idle_timeout" cfg.idleTimeout) }
    else cfg
  let cfg :=
    if core.has "websocket.enable_deflate" then
      { cfg with
        enablePerMessageDeflate := core.getBool "websocket.enable_deflate" cfg.enablePerMessageDeflate }
    else cfg
  let cfg :=
    if core.has "websocket.ping_interval" then
      let v := core.getInt "websocket.ping_interval" cfg.pingInterval
      { cfg with pingInterval := if v ≤ 0 then 0 else v }
    else cfg
  if core.has "websocket.auto_ping_pong" then
    { cfg with autoPingPong := core.getBool "websocket.auto_ping_pong" cfg.autoPingPong }
  else cfg

/-! ## The `Session` write path (`src/session.cpp`)

`Session` holds no write queue and no writer flag: `send_text` /
`send_binary` (when not closing) post one independent write task to the
shared `IExecutor`, and `do_write_text` / `do_write_binary` call
`async_write` directly; `on_write_complete` only logs.  The executor is an
external worker pool (a task-submission interface), so a pending task set
with a nondeterministic run step models it: `ExecStep` lets any posted task
run next. -/

/-- A task posted by `send_text` (`do_write_text`) or `send_binary`
(`do_write_binary`). -/
inductive WriteTask where
  | text (payload : String) : WriteTask
  | binary (payload : List Nat) : WriteTask

/-- The session together with its posted tasks and the frames the socket
has accepted, in write order. -/
structure SessionSys where
  closing : Bool
  socketOpen : Bool
  pending : List WriteTask
  written : List WriteTask

/-- `Session::send_text`: a closing session drops the frame silently;
otherwise one write task is posted to the executor. -/
def sendText (s : SessionSys) (payload : String) : SessionSys :=
  if s.closing then s
  else { s with pending := s.pending ++ [WriteTask.text payload] }

/-- `Session::send_binary`: same shape as `send_text`. -/
def sendBinary (s : SessionSys) (payload : List Nat) : SessionSys :=
  if s.closing then s
  else { s with pending := s.pending ++ [WriteTask.binary payload] }

/-- `Session::close`: an already-closing session returns immediately;
otherwise the closing flag is set (the close frame itself is asynchronous
and not modelled further). -/
def closeSession (s : SessionSys) : SessionSys :=
  if s.closing then s else { s with closing := true }

/-- A posted write task runs: `do_write_*` returns without writing when the
session is closing or the socket is closed, else the frame goes out. -/
def runTask (s : SessionSys) (i : Nat) : SessionSys :=
  match s.pending[i]? with
  | none => s
  | some t =>
    let rest := s.pending.eraseIdx i
    if s.closing || !s.socketOpen then { s with pending := rest }
    else { s with pending := rest, written := s.written ++ [t] }

/-- One scheduling step of the worker-pool executor: any currently pending
task may be the next to run to completion. -/
inductive ExecStep : SessionSys → SessionSys → Prop
  | run (s : SessionSys) (i : Nat) (h : i < s.pending.length) : ExecStep s (runTask s i)

/-- Reachability under executor scheduling. -/
def ExecReach : SessionSys → SessionSys → Prop := Relation.ReflTransGen ExecStep

/-! ## Helper notions for stating the round-trip property -/

/-- A key/value pair list flattened to the `kvs` wire layout
(`key₁, value₁, key₂, value₂, …`). -/
def flatKvs : List (String × Token) → List Token
  | [] => []
  | (k, v) :: rest => Token.strV k :: v :: flatKvs rest

/-- Scalar payload values: string, integer, double, boolean, null — the
ones `nlohmann_payload_to_kvs` maps back faithfully. -/
def scalarToken : Token → Bool
  | Token.arrV _ => false
  | Token.kvsV _ => false
  | _ => true

/-! ## Concrete instances used to instantiate theorems with hypotheses -/

/-- A plain chat envelope. -/
def exMsgA : JsonMessage :=
  { type := "chat.message", payload := [Token.strV "text", Token.strV "a"] }

/-- A second plain chat envelope. -/
def exMsgB : JsonMessage :=
  { type := "chat.message", payload := [Token.strV "text", Token.strV "b"] }

/-- A third plain chat envelope. -/
def exMsgC : JsonMessage :=
  { type := "chat.message", payload := [Token.strV "text", Token.strV "c"] }

/-- A fresh long-poll session with an empty buffer. -/
def exLpEmpty : LongPollingSession := { id := "lp", lastSeen := 0, buffer := [] }

/-- A stale empty long-poll session (`last_seen = 0`). -/
def exLpStale : LongPollingSession := { id := "x", lastSeen := 0, buffer := [] }

/-- A manager holding only the stale empty session. -/
def exMgrStale : LongPollingManager :=
  { sessionTtl := 60, maxBufferPerSession := 256, sessions := [("x", exLpStale)] }

/-- A stale session with one buffered envelope. -/
def exLpLoaded : LongPollingSession := { id := "x", lastSeen := 0, buffer := [exMsgA] }

/-- A manager holding only the loaded session. -/
def exMgrLoaded : LongPollingManager :=
  { sessionTtl := 60, maxBufferPerSession := 256, sessions := [("x", exLpLoaded)] }

/-- A manager with no sessions. -/
def exMgrEmpty : LongPollingManager :=
  { sessionTtl := 60, maxBufferPerSession := 256, sessions := [] }

/-- A core configuration carrying an undersized `max_message_size` (100
bytes) and an undersized `idle_timeout` (2 seconds). -/
def exCore : CoreConfig :=
  { has := fun k => k == "websocket.max_message_size" || k == "websocket.idle_timeout"
    getInt := fun k d =>
      if k = "websocket.max_message_size" then 100
      else if k = "websocket.idle_timeout" then 2 else d
    getBool := fun _ d => d }

/-- A stored row with explicit id `"A"`. -/
def exRow : Row := appendRow { id := "A", type := "chat.message", room := "general" } 0 "t0"

/-- A later envelope reusing the explicit id `"A"`. -/
def exMsgDup : JsonMessage := { id := "A", type := "chat.other", ts := "t9" }

/-! # Theorems -/

/-- C8: `Config::from_core` silently clamps configured values to minimums —
the resulting `max_message_size` is always at least 1024 bytes (any smaller
configured value is raised to exactly 1024), the resulting `idle_timeout`
is always at least 5 seconds (any smaller configured value is raised to
exactly 5), so an idle timeout shorter than 5 s can never take effect. -/
theorem from_core_clamps (core : CoreConfig) :
    1024 ≤ (Config.from_core core).maxMessageSize ∧
    5 ≤ (Config.from_core core).idleTimeout ∧
    (core.has "websocket.max_message_size" = true →
      core.getInt "websocket.max_message_size" 65536 < 1024 →
      (Config.from_core core).maxMessageSize = 1024) ∧
    (core.has "websocket.idle_timeout" = true →
      core.getInt "websocket.idle_timeout" 60 < 5 →
      (Config.from_core core).idleTimeout = 5) := by
  unfold Config.from_core
  split_ifs <;>
    refine ⟨?_, ?_, ?_, ?_⟩ <;>
    simp_all <;>
    omega

/-- Witness for C8: a configuration with `max_message_size = 100` and
`idle_timeout = 2` is clamped to 1024 bytes and 5 seconds. -/
theorem from_core_clamps_witness :
    (Config.from_core exCore).maxMessageSize = 1024 ∧
    (Config.from_core exCore).idleTimeout = 5 :=
  ⟨(from_core_clamps exCore).2.2.1 (by decide) (by decide),
   (from_core_clamps exCore).2.2.2 (by decide) (by decide)⟩

/-- C10: once `Session::close` has run (the closing flag is set), every
later `send_text` or `send_binary` is a silent no-op — the state is
unchanged, so nothing is posted to the executor, nothing reaches the
socket, and no error is surfaced to the caller (both functions return
`void` before doing anything). -/
theorem send_after_close_noop (s : SessionSys) (p : String) (d : List Nat) :
    sendText (closeSession s) p = closeSession s ∧
    sendBinary (closeSession s) d = closeSession s := by
  unfold closeSession sendText sendBinary
  by_cases h : s.closing <;> simp [h]

/-- C9: `SqliteMessageStore::append` with an explicit id equal to an
already-stored row's id does not fail — `INSERT OR REPLACE` resolves the
primary-key conflict by replacing, so afterwards the store holds exactly
the new row under that id and the earlier row is gone (unless it was
already identical). -/
theorem append_duplicate_id_replaces (rows : List Row) (r : Row) (msg : JsonMessage)
    (micros : Nat) (tsNow : String)
    (hmem : r ∈ rows) (hid : r.id = (appendRow msg micros tsNow).id) :
    (SqliteMessageStore.append rows msg micros tsNow).filter
        (fun q => q.id == (appendRow msg micros tsNow).id) = [appendRow msg micros tsNow] ∧
    appendRow msg micros tsNow ∈ SqliteMessageStore.append rows msg micros tsNow ∧
    (r ≠ appendRow msg micros tsNow →
      r ∉ SqliteMessageStore.append rows msg micros tsNow) := by
  unfold SqliteMessageStore.append insertOrReplace
  refine ⟨?_, ?_, ?_⟩
  · rw [List.filter_append]
    have h1 : (rows.filter (fun q => q.id ≠ (appendRow msg micros tsNow).id)).filter
        (fun q => q.id == (appendRow msg micros tsNow).id) = [] := by
      rw [List.filter_filter, List.filter_eq_nil_iff]
      intro a _
      by_cases hq : a.id = (appendRow msg micros tsNow).id <;> simp [hq]
    rw [h1]
    simp
  · simp
  · intro hne
    simp only [List.mem_append, List.mem_filter, List.mem_singleton]
    rintro (⟨_, hkeep⟩ | hlast)
    · simp [hid] at hkeep
    · exact hne hlast

/-- Witness for C9: appending `exMsgDup` (explicit id `"A"`) over the
stored `exRow` (id `"A"`) leaves exactly the new row under id `"A"` and
removes `exRow`. -/
theorem append_duplicate_id_replaces_witness :
    (SqliteMessageStore.append [exRow] exMsgDup 5 "t5").filter
        (fun q => q.id == (appendRow exMsgDup 5 "t5").id) = [appendRow exMsgDup 5 "t5"] ∧
    appendRow exMsgDup 5 "t5" ∈ SqliteMessageStore.append [exRow] exMsgDup 5 "t5" ∧
    exRow ∉ SqliteMessageStore.append [exRow] exMsgDup 5 "t5" :=
  ⟨(append_duplicate_id_replaces [exRow] exRow exMsgDup 5 "t5" (List.Mem.head _) rfl).1,
   (append_duplicate_id_replaces [exRow] exRow exMsgDup 5 "t5" (List.Mem.head _) rfl).2.1,
   (append_duplicate_id_replaces [exRow] exRow exMsgDup 5 "t5" (List.Mem.head _) rfl).2.2
     (by simp [exRow, exMsgDup, appendRow])⟩

/-- One enqueue step on the buffer keeps only a suffix: with at most `B`
entries before, the result is `(buf ++ [m]).drop (buf.length + 1 - B)`. -/
theorem bufEnqueue_eq_drop (buf : List JsonMessage) (m : JsonMessage) (B : Nat)
    (h : buf.length ≤ B) :
    bufEnqueue buf m B = (buf ++ [m]).drop (buf.length + 1 - B) := by
  unfold bufEnqueue
  by_cases hc : B < (buf ++ [m]).length
  · rw [if_pos hc]
    have hlen : (buf ++ [m]).length = buf.length + 1 := by simp
    have : buf.length + 1 - B = 1 := by omega
    rw [this]
  · rw [if_neg hc]
    have hlen : (buf ++ [m]).length = buf.length + 1 := by simp
    have : buf.length + 1 - B = 0 := by omega
    rw [this, List.drop_zero]

/-- Running a sequence of enqueues from a buffer holding at most `B`
entries leaves exactly the last `B` (at most) of the concatenated stream,
in order: drop-head overflow never reorders and always drops the oldest. -/
theorem enqueueAll_buffer (B : Nat) (items : List (JsonMessage × Nat)) :
    ∀ s : LongPollingSession, s.buffer.length ≤ B →
      (enqueueAll s B items).buffer =
        (s.buffer ++ items.map Prod.fst).drop (s.buffer.length + items.length - B) := by
  induction items with
  | nil =>
    intro s h
    simp only [enqueueAll, List.map_nil, List.append_nil, List.length_nil, Nat.add_zero]
    rw [Nat.sub_eq_zero_of_le h, List.drop_zero]
  | cons it rest ih =>
    intro s h
    obtain ⟨m, t⟩ := it
    have hstep : (s.enqueue m B t).buffer = (s.buffer ++ [m]).drop (s.buffer.length + 1 - B) :=
      bufEnqueue_eq_drop s.buffer m B h
    have hlen' : (s.enqueue m B t).buffer.length =
        s.buffer.length + 1 - (s.buffer.length + 1 - B) := by
      rw [hstep, List.length_drop]
      simp
    have hle' : (s.enqueue m B t).buffer.length ≤ B := by omega
    have hih := ih (s.enqueue m B t) hle'
    have hcombine :
        List.drop (s.buffer.length + 1 - B) (s.buffer ++ [m]) ++ rest.map Prod.fst =
          List.drop (s.buffer.length + 1 - B) ((s.buffer ++ [m]) ++ rest.map Prod.fst) := by
      conv_rhs => rw [List.drop_append_eq_append_drop]
      have hz : s.buffer.length + 1 - B - (s.buffer ++ [m]).length = 0 := by
        simp only [List.length_append, List.length_cons, List.length_nil]
        omega
      rw [hz, List.drop_zero]
    rw [enqueueAll, hih, hlen', hstep, hcombine, List.drop_drop]
    have hl : (s.buffer ++ [m]) ++ (rest.map Prod.fst) =
        s.buffer ++ ((m, t) :: rest).map Prod.fst := by
      simp
    rw [hl]
    congr 1
    simp only [List.length_cons]
    omega

/-- C4: after `B + k` enqueues (`k ≥ 1`) into a long-poll session whose
buffer starts empty and whose capacity is `B`, with no intervening drain, a
full drain (`maxCount ≥ B`) returns exactly the last `B` enqueued
envelopes, in their original enqueue order — the first `k` were dropped
head-first — and empties the buffer. -/
theorem lp_drop_head_overflow (B k N now' : Nat) (items : List (JsonMessage × Nat))
    (s : LongPollingSession) (hbuf : s.buffer = []) (hk : 1 ≤ k)
    (hlen : items.length = B + k) (hN : B ≤ N) :
    ((enqueueAll s B items).drain N now').1 = (items.map Prod.fst).drop k ∧
    ((enqueueAll s B items).drain N now').2.buffer = [] := by
  have hbufeq : (enqueueAll s B items).buffer = (items.map Prod.fst).drop k := by
    have hgen := enqueueAll_buffer B items s (by rw [hbuf]; simp)
    rw [hbuf] at hgen
    simpa [hlen] using hgen
  have hbuflen : (enqueueAll s B items).buffer.length = B := by
    rw [hbufeq, List.length_drop, List.length_map, hlen]
    omega
  by_cases hB : B = 0
  · have hempty : (enqueueAll s B items).buffer = [] :=
      List.eq_nil_of_length_eq_zero (by rw [hbuflen, hB])
    have h1 : (items.map Prod.fst).drop k = [] := hbufeq.symm.trans hempty
    constructor
    · simp [LongPollingSession.drain, hempty, h1]
    · simp [LongPollingSession.drain, hempty]
  · have hN0 : ¬ (N = 0) := by omega
    have hnotempty : (enqueueAll s B items).buffer.isEmpty = false := by
      cases hqb : (enqueueAll s B items).buffer with
      | nil => rw [hqb] at hbuflen; simp at hbuflen; omega
      | cons a tl => rfl
    have hmin : min N (enqueueAll s B items).buffer.length = B := by
      rw [hbuflen]
      omega
    constructor
    · unfold LongPollingSession.drain
      rw [if_neg (by simp [hN0, hnotempty])]
      dsimp only
      rw [hmin, List.take_of_length_le (le_of_eq hbuflen), hbufeq]
    · unfold LongPollingSession.drain
      rw [if_neg (by simp [hN0, hnotempty])]
      dsimp only
      rw [hmin]
      exact List.drop_eq_nil_of_le (le_of_eq hbuflen)

/-- Witness for C4: capacity 1, two enqueues (`exMsgA` then `exMsgB`), full
drain returns only `exMsgB` and leaves the buffer empty. -/
theorem lp_drop_head_overflow_witness :
    ((enqueueAll exLpEmpty 1 [(exMsgA, 1), (exMsgB, 2)]).drain 1 3).1 =
      ([(exMsgA, 1), (exMsgB, 2)].map Prod.fst).drop 1 ∧
    ((enqueueAll exLpEmpty 1 [(exMsgA, 1), (exMsgB, 2)]).drain 1 3).2.buffer = [] :=
  lp_drop_head_overflow 1 1 1 3 [(exMsgA, 1), (exMsgB, 2)] exLpEmpty rfl (by decide) rfl
    (by decide)

/-- Looking up a session id right after storing a session under it yields
that session. -/
theorem find_setSession (l : List (String × LongPollingSession)) (sid : String)
    (s : LongPollingSession) :
    (setSession l sid s).find? (fun p => p.1 == sid) = some (sid, s) := by
  induction l with
  | nil => simp [setSession]
  | cons kv rest ih =>
    obtain ⟨k, v⟩ := kv
    by_cases hk : k = sid
    · simp [setSession, hk]
    · simp [setSession, hk, ih]

/-- `findSession` after `setSession` on the same id. -/
theorem findSession_set (m : LongPollingManager) (l : List (String × LongPollingSession))
    (sid : String) (s : LongPollingSession) :
    findSession { m with sessions := setSession l sid s } sid = some s := by
  unfold findSession
  simp [find_setSession]

/-- C7 counterexample: on the stale manager (session `"x"`, `last_seen` 0,
empty buffer), a `poll` at time 100 — a drain returning zero envelopes —
leaves `last_seen` at 0 instead of updating it to 100: the early return in
`LongPollingSession::drain` skips `touch()` when the buffer is empty (or
`max_messages` is 0). -/
theorem poll_empty_skips_touch :
    (findSession (exMgrStale.poll "x" 5 true 100).2 "x").map LongPollingSession.lastSeen =
      some 0 ∧ (0 : Nat) ≠ 100 :=
  ⟨rfl, by decide⟩

/-- C7 amended: every `push_to` updates `last_seen` of the target session
to the current time, and a `poll` on an existing session updates
`last_seen` exactly when it returns at least one envelope (`max_messages ≠
0` and a non-empty buffer); a drain that returns zero envelopes leaves
`last_seen` unchanged. -/
theorem lp_touch_amended (m : LongPollingManager) (sid : String) (msg : JsonMessage)
    (now maxN : Nat) (s : LongPollingSession)
    (hfind : findSession m sid = some s) :
    (findSession (m.push_to sid msg now) sid).map LongPollingSession.lastSeen = some now ∧
    (maxN ≠ 0 → s.buffer ≠ [] →
      (findSession (m.poll sid maxN true now).2 sid).map LongPollingSession.lastSeen =
        some now) ∧
    (maxN = 0 ∨ s.buffer = [] →
      (findSession (m.poll sid maxN true now).2 sid).map LongPollingSession.lastSeen =
        some s.lastSeen) := by
  have drain_pos : ∀ (q : LongPollingSession) (mN nw : Nat), mN ≠ 0 → q.buffer ≠ [] →
      q.drain mN nw = (q.buffer.take (min mN q.buffer.length),
        { q with buffer := q.buffer.drop (min mN q.buffer.length), lastSeen := nw }) := by
    intro q mN nw hmN hq
    unfold LongPollingSession.drain
    rw [if_neg (by simp [hmN, hq])]
  have drain_zero : ∀ (q : LongPollingSession) (mN nw : Nat), mN = 0 ∨ q.buffer = [] →
      q.drain mN nw = ([], q) := by
    intro q mN nw hq
    unfold LongPollingSession.drain
    rw [if_pos (by rcases hq with hz | hz <;> simp [hz])]
  refine ⟨?_, ?_, ?_⟩
  · unfold LongPollingManager.push_to
    rw [findSession_set]
    simp [LongPollingSession.enqueue]
  · intro hmax hbuf
    simp only [LongPollingManager.poll, hfind, drain_pos s maxN now hmax hbuf, findSession_set]
    rfl
  · intro hzero
    simp only [LongPollingManager.poll, hfind, drain_zero s maxN now hzero, findSession_set]
    rfl

/-- Witness for C7 (amended): on the loaded manager (session `"x"` with one
buffered envelope, `last_seen` 0), both a `push_to` and a non-empty `poll`
at time 100 move `last_seen` to 100. -/
theorem lp_touch_amended_witness :
    (findSession (exMgrLoaded.push_to "x" exMsgB 100) "x").map LongPollingSession.lastSeen =
      some 100 ∧
    (findSession (exMgrLoaded.poll "x" 5 true 100).2 "x").map LongPollingSession.lastSeen =
      some 100 :=
  ⟨(lp_touch_amended exMgrLoaded "x" exMsgB 100 5 exLpLoaded rfl).1,
   (lp_touch_amended exMgrLoaded "x" exMsgB 100 5 exLpLoaded rfl).2.1 (by decide) (by simp [exLpLoaded])⟩

/-- The character code of a digit character. -/
theorem digitChar_toNat (d : Nat) (h : d < 10) : (digitChar d).toNat = 48 + d := by
  interval_cases d <;> rfl

/-- Lexicographic comparison of equal-width zero-padded decimal strings is
numeric comparison. -/
theorem charListLt_digitsOf (k : Nat) :
    ∀ a b : Nat, a < 10 ^ k → b < 10 ^ k →
      (charListLt ((digitsOf k a).map digitChar) ((digitsOf k b).map digitChar) = true ↔
        a < b) := by
  induction k with
  | zero =>
    intro a b ha hb
    simp only [pow_zero, Nat.lt_one_iff] at ha hb
    subst ha; subst hb
    simp [digitsOf, charListLt]
  | succ k ih =>
    intro a b ha hb
    have hpos : 0 < 10 ^ k := Nat.pos_pow_of_pos k (by norm_num)
    have hqa : a / 10 ^ k < 10 := by
      rw [Nat.div_lt_iff_lt_mul hpos]
      calc a < 10 ^ (k + 1) := ha
        _ = 10 * 10 ^ k := by ring
    have hqb : b / 10 ^ k < 10 := by
      rw [Nat.div_lt_iff_lt_mul hpos]
      calc b < 10 ^ (k + 1) := hb
        _ = 10 * 10 ^ k := by ring
    have hra : a % 10 ^ k < 10 ^ k := Nat.mod_lt _ hpos
    have hrb : b % 10 ^ k < 10 ^ k := Nat.mod_lt _ hpos
    have ea : 10 ^ k * (a / 10 ^ k) + a % 10 ^ k = a := Nat.div_add_mod a (10 ^ k)
    have eb : 10 ^ k * (b / 10 ^ k) + b % 10 ^ k = b := Nat.div_add_mod b (10 ^ k)
    simp only [digitsOf, List.map_cons, charListLt,
      digitChar_toNat _ hqa, digitChar_toNat _ hqb]
    by_cases h1 : a / 10 ^ k < b / 10 ^ k
    · rw [if_pos (by omega)]
      simp only [true_iff]
      calc a < 10 ^ k * (a / 10 ^ k) + 10 ^ k := by omega
        _ = 10 ^ k * (a / 10 ^ k + 1) := by ring
        _ ≤ 10 ^ k * (b / 10 ^ k) := Nat.mul_le_mul_left _ (by omega)
        _ ≤ b := by omega
    · by_cases h2 : b / 10 ^ k < a / 10 ^ k
      · rw [if_neg (by omega), if_pos (by omega)]
        constructor
        · intro hlt
          simp at hlt
        · intro hlt
          exfalso
          have hba : b < a :=
            calc b < 10 ^ k * (b / 10 ^ k) + 10 ^ k := by omega
              _ = 10 ^ k * (b / 10 ^ k + 1) := by ring
              _ ≤ 10 ^ k * (a / 10 ^ k) := Nat.mul_le_mul_left _ (by omega)
              _ ≤ a := by omega
          omega
      · have hq : a / 10 ^ k = b / 10 ^ k := by omega
        rw [if_neg (by omega), if_neg (by omega)]
        rw [ih (a % 10 ^ k) (b % 10 ^ k) hra hrb]
        rw [hq] at ea
        constructor
        · intro hlt
          omega
        · intro hlt
          omega

/-- `generate_id` is strictly monotone in the microsecond clock reading (as
long as the count fits in the 20-character field, true until far beyond any
representable date). -/
theorem generate_id_mono (a b : Nat) (hab : a < b) (hb : b < 10 ^ 20) :
    cppStrLt (generate_id a) (generate_id b) = true := by
  have h := (charListLt_digitsOf 20 a b (lt_trans hab hb) hb).mpr hab
  simpa [cppStrLt, generate_id] using h

/-- C1 counterexample: id generation is not strictly monotonic across calls
that merely do not overlap — two `append` calls whose `system_clock`
microsecond readings coincide (`a` completes before `b` begins within the
same microsecond) store equal ids, not lexicographically increasing ones;
there is no last-issued compare-and-swap. -/
theorem append_id_not_strictly_monotonic :
    ¬ (∀ micros₁ micros₂ : Nat, micros₁ ≤ micros₂ →
        cppStrLt (appendRow { type := "t" } micros₁ "T").id
          (appendRow { type := "t" } micros₂ "T").id = true) :=
  fun h => absurd (h 0 0 le_rfl) (by decide)

/-- C1 amended: whenever the microsecond clock reading strictly advances
between two `append` calls that let the store mint the id (empty `id`
field), the stored ids are lexicographically strictly increasing; with an
unchanged reading the two ids are equal, so minted ids are only
non-decreasing. -/
theorem append_id_strict_mono_of_clock_advance (msg₁ msg₂ : JsonMessage)
    (micros₁ micros₂ : Nat) (ts₁ ts₂ : String)
    (h1 : msg₁.id = "") (h2 : msg₂.id = "")
    (hlt : micros₁ < micros₂) (hbound : micros₂ < 10 ^ 20) :
    cppStrLt (appendRow msg₁ micros₁ ts₁).id (appendRow msg₂ micros₂ ts₂).id = true := by
  simp only [appendRow, h1, h2, if_pos rfl]
  exact generate_id_mono micros₁ micros₂ hlt hbound

/-- Witness for C1 (amended): clock readings 0 then 1 give strictly
increasing stored ids. -/
theorem append_id_strict_mono_witness :
    cppStrLt (appendRow { type := "t" } 0 "T").id (appendRow { type := "t" } 1 "T").id = true :=
  append_id_strict_mono_of_clock_advance { type := "t" } { type := "t" } 0 1 "T" "T"
    rfl rfl (by decide) (by norm_num)

/-- C2: the session write path has no per-session FIFO queue and no
single-in-flight writer — each `send_text` posts an independent task to the
shared worker-pool executor and `on_write_complete` continues nothing.
Consequently, after `send_text "a"` then `send_text "b"` on an open
session, executor scheduling can deliver `"b"` to the socket before `"a"`:
the reversed write order is reachable, refuting FIFO delivery. -/
theorem session_write_reorder_reachable :
    ExecReach
      (sendText (sendText
        { closing := false, socketOpen := true, pending := [], written := [] } "a") "b")
      { closing := false, socketOpen := true, pending := [],
        written := [WriteTask.text "b", WriteTask.text "a"] } := by
  refine Relation.ReflTransGen.head (ExecStep.run _ 1 (by decide)) ?_
  refine Relation.ReflTransGen.head (ExecStep.run _ 0 (by decide)) ?_
  exact Relation.ReflTransGen.refl

/-- C5: history replay does not tag envelopes `kind = "history"`.  The
`chat.join` handler re-tags only rows whose stored kind is empty, but
`append` never stores an empty kind (it defaults to `"event"` and the
column is NOT NULL), so the tagging branch is dead: seeding the store with
a plain `chat.message` (empty kind, stored as `"event"`) and joining
`"general"` sends the history envelope with kind `"event"`, not
`"history"`. -/
theorem chat_join_history_kind_not_history :
    (chatJoinSentHistory
        (SqliteMessageStore.append []
          { id := "A", room := "general", type := "chat.message", ts := "t1" } 0 "t0")
        "general").map JsonMessage.kind = ["event"] ∧ ("event" : String) ≠ "history" :=
  ⟨rfl, by decide⟩

/-- C6: the `GET /ws/poll` route returns
`400 {"error":"missing_session_id"}` when the `session_id` query parameter
is missing, and for a present non-empty `session_id` returns 200 with the
JSON array of the envelopes drained from the long-poll bridge
(`createIfMissing = true`), where the `max` bound falls back to 50 whenever
`std::stoul` cannot parse the given value. -/
theorem ws_poll_route_contract (target : String) (mgr : LongPollingManager) (now : Nat) :
    (getQueryParam target "session_id" = none →
      wsPollRoute target mgr now =
        ({ status := 400, body := njson.objJ [("error", njson.strJ "missing_session_id")] },
         mgr)) ∧
    (∀ sid, getQueryParam target "session_id" = some sid → sid ≠ "" →
      wsPollRoute target mgr now =
        ({ status := 200,
           body := json_messages_to_nlohmann_array
             (mgr.poll sid (wsPollMax target) true now).1 },
         (mgr.poll sid (wsPollMax target) true now).2)) ∧
    (∀ maxStr, getQueryParam target "max" = some maxStr → stoulOpt maxStr = none →
      wsPollMax target = 50) := by
  refine ⟨?_, ?_, ?_⟩
  · intro hnone
    simp [wsPollRoute, hnone]
  · intro sid hsid hne
    simp only [wsPollRoute, hsid]
    rw [if_neg hne]
  · intro maxStr hmax hparse
    simp [wsPollMax, hmax, hparse]

/-- Witness for C6: `"/ws/poll"` (no query string) is rejected with 400;
`"/ws/poll?session_id=abc&max=zz"` is served with 200, draining session
`"abc"` with the fallback bound 50 since `std::stoul("zz")` throws. -/
theorem ws_poll_route_contract_witness :
    wsPollRoute "/ws/poll" exMgrEmpty 0 =
      ({ status := 400, body := njson.objJ [("error", njson.strJ "missing_session_id")] },
       exMgrEmpty) ∧
    wsPollRoute "/ws/poll?session_id=abc&max=zz" exMgrEmpty 0 =
      ({ status := 200,
         body := json_messages_to_nlohmann_array
           (exMgrEmpty.poll "abc" (wsPollMax "/ws/poll?session_id=abc&max=zz") true 0).1 },
       (exMgrEmpty.poll "abc" (wsPollMax "/ws/poll?session_id=abc&max=zz") true 0).2) ∧
    wsPollMax "/ws/poll?session_id=abc&max=zz" = 50 :=
  ⟨(ws_poll_route_contract "/ws/poll" exMgrEmpty 0).1 rfl,
   (ws_poll_route_contract "/ws/poll?session_id=abc&max=zz" exMgrEmpty 0).2.1 "abc" rfl
     (by decide),
   (ws_poll_route_contract "/ws/poll?session_id=abc&max=zz" exMgrEmpty 0).2.2 "zz" rfl rfl⟩

/-- Byte-wise string comparison is irreflexive. -/
theorem charListLt_irrefl : ∀ l : List Char, charListLt l l = false := by
  intro l
  induction l with
  | nil => rfl
  | cons a rest ih => simp [charListLt, ih]

/-- Byte-wise string comparison is asymmetric. -/
theorem charListLt_asymm : ∀ a b : List Char, charListLt a b = true → charListLt b a = false := by
  intro a
  induction a with
  | nil =>
    intro b hab
    cases b with
    | nil => simp [charListLt] at hab
    | cons y ys => rfl
  | cons x xs ih =>
    intro b hab
    cases b with
    | nil => simp [charListLt] at hab
    | cons y ys =>
      simp only [charListLt] at hab ⊢
      by_cases h1 : x.toNat < y.toNat
      · rw [if_neg (Nat.lt_asymm h1), if_pos h1]
      · by_cases h2 : y.toNat < x.toNat
        · rw [if_neg h1, if_pos h2] at hab
          exact absurd hab (by simp)
        · rw [if_neg h1, if_neg h2] at hab
          rw [if_neg h2, if_neg h1]
          exact ih ys hab

/-- Irreflexivity at the `String` level. -/
theorem cppStrLt_irrefl (a : String) : cppStrLt a a = false :=
  charListLt_irrefl a.data

/-- Asymmetry at the `String` level. -/
theorem cppStrLt_asymm (a b : String) (h : cppStrLt a b = true) : cppStrLt b a = false :=
  charListLt_asymm a.data b.data h

/-- Looking up the key just assigned by `obj[key] = v` yields `v`. -/
theorem objLookup_objInsert_self (l : List (String × njson)) (k : String) (v : njson) :
    objLookup (objInsert l k v) k = some v := by
  induction l with
  | nil => simp [objInsert, objLookup]
  | cons kv rest ih =>
    obtain ⟨k', v'⟩ := kv
    by_cases h1 : cppStrLt k k' = true
    · simp [objInsert, h1, objLookup]
    · by_cases h2 : k = k'
      · simp [objInsert, h1, h2, objLookup, cppStrLt_irrefl]
      · have h2' : ¬ (k' = k) := fun h => h2 h.symm
        simp [objInsert, h1, h2, objLookup, h2', ih]

/-- Assigning one key leaves lookups of any other key unchanged. -/
theorem objLookup_objInsert_ne (l : List (String × njson)) (k k'' : String) (v : njson)
    (hne : k ≠ k'') :
    objLookup (objInsert l k v) k'' = objLookup l k'' := by
  induction l with
  | nil => simp [objInsert, objLookup, hne]
  | cons kv rest ih =>
    obtain ⟨k', v'⟩ := kv
    by_cases h1 : cppStrLt k k' = true
    · simp [objInsert, h1, objLookup, hne]
    · by_cases h2 : k = k'
      · subst h2
        simp [objInsert, h1, objLookup, hne]
      · simp [objInsert, h1, h2, objLookup, ih]

/-- Assigning a key greater than every key present appends the entry. -/
theorem objInsert_append_of_gt (l : List (String × njson)) (k : String) (v : njson)
    (h : ∀ p ∈ l, cppStrLt p.1 k = true) :
    objInsert l k v = l ++ [(k, v)] := by
  induction l with
  | nil => rfl
  | cons kv rest ih =>
    obtain ⟨k', v'⟩ := kv
    have hk' : cppStrLt k' k = true := h (k', v') (List.mem_cons_self _ _)
    have h1 : cppStrLt k k' = false := cppStrLt_asymm k' k hk'
    have h2 : ¬ (k = k') := by
      intro he
      rw [he, cppStrLt_irrefl] at hk'
      exact Bool.false_ne_true hk'
    simp [objInsert, h1, h2, ih (fun p hp => h p (List.mem_cons_of_mem _ hp))]

/-- Serialising a flat kvs whose keys are strictly ascending (and greater
than everything already in the object) just appends the converted pairs in
order. -/
theorem wsKvsFlat_sorted :
    ∀ (pairs : List (String × Token)) (acc : List (String × njson)),
      pairs.Pairwise (fun p q => cppStrLt p.1 q.1 = true) →
      (∀ a ∈ acc, ∀ p ∈ pairs, cppStrLt a.1 p.1 = true) →
      wsKvsFlat acc (flatKvs pairs) =
        acc ++ pairs.map (fun p => (p.1, wsTokenToNlohmann p.2)) := by
  intro pairs
  induction pairs with
  | nil =>
    intro acc _ _
    simp [flatKvs, wsKvsFlat]
  | cons p rest ih =>
    intro acc hsort hacc
    obtain ⟨k, v⟩ := p
    have hins : objInsert acc k (wsTokenToNlohmann v) = acc ++ [(k, wsTokenToNlohmann v)] :=
      objInsert_append_of_gt acc k _
        (fun a ha => hacc a ha (k, v) (List.mem_cons_self _ _))
    have hsort' : rest.Pairwise (fun p q => cppStrLt p.1 q.1 = true) :=
      (List.pairwise_cons.mp hsort).2
    have hhead : ∀ q ∈ rest, cppStrLt k q.1 = true :=
      fun q hq => (List.pairwise_cons.mp hsort).1 q hq
    have hacc' : ∀ a ∈ acc ++ [(k, wsTokenToNlohmann v)], ∀ q ∈ rest,
        cppStrLt a.1 q.1 = true := by
      intro a ha q hq
      rcases List.mem_append.mp ha with hin | hin
      · exact hacc a hin q (List.mem_cons_of_mem _ hq)
      · rw [List.mem_singleton.mp hin]
        exact hhead q hq
    calc wsKvsFlat acc (flatKvs ((k, v) :: rest))
        = wsKvsFlat (objInsert acc k (wsTokenToNlohmann v)) (flatKvs rest) := by
          rw [flatKvs]
          rw [wsKvsFlat]
      _ = acc ++ ((k, v) :: rest).map (fun p => (p.1, wsTokenToNlohmann p.2)) := by
          rw [hins, ih _ hsort' hacc']
          simp

/-- Reading back an object whose values came from scalar payload tokens
reproduces the original flat kvs. -/
theorem payloadFields_map_inverse (pairs : List (String × Token))
    (hscalar : ∀ p ∈ pairs, scalarToken p.2 = true) :
    payloadFields (pairs.map (fun p => (p.1, wsTokenToNlohmann p.2))) = flatKvs pairs := by
  induction pairs with
  | nil => rfl
  | cons p rest ih =>
    obtain ⟨k, v⟩ := p
    have hv : scalarToken v = true := hscalar (k, v) (List.mem_cons_self _ _)
    have hval : payloadValToken (wsTokenToNlohmann v) = v := by
      cases v <;> simp_all [scalarToken, wsTokenToNlohmann, payloadValToken]
    simp [payloadFields, flatKvs, hval,
      ih (fun q hq => hscalar q (List.mem_cons_of_mem _ hq))]

/-- A conditional insert of a different key does not change a lookup. -/
theorem objLookup_condInsert_ne (l : List (String × njson)) (c : Prop) [Decidable c]
    (k k'' : String) (v : njson) (hne : k ≠ k'') :
    objLookup (if c then l else objInsert l k v) k'' = objLookup l k'' := by
  split_ifs with h
  · rfl
  · exact objLookup_objInsert_ne l k k'' v hne

/-- Looking up the key of a conditional insert. -/
theorem objLookup_condInsert_self (l : List (String × njson)) (c : Prop) [Decidable c]
    (k : String) (v : njson) :
    objLookup (if c then l else objInsert l k v) k =
      if c then objLookup l k else some v := by
  split_ifs with h
  · rfl
  · exact objLookup_objInsert_self l k v

/-- `JsonMessage::parse` on an object whose six fields look up as
`serialize` emits them (optional strings present exactly when non-empty,
`type` present, `payload` present and converting back to the original kvs)
returns the original envelope. -/
theorem parseTree_fields (fl : List (String × njson)) (m : JsonMessage) (pj : njson)
    (hid : objLookup fl "id" = (if m.id = "" then none else some (njson.strJ m.id)))
    (hkind : objLookup fl "kind" = (if m.kind = "" then none else some (njson.strJ m.kind)))
    (hts : objLookup fl "ts" = (if m.ts = "" then none else some (njson.strJ m.ts)))
    (hroom : objLookup fl "room" = (if m.room = "" then none else some (njson.strJ m.room)))
    (htype : objLookup fl "type" = some (njson.strJ m.type))
    (hpay : objLookup fl "payload" = some pj)
    (hpj : nlohmannPayloadToKvs pj = m.payload)
    (hty : m.type ≠ "") :
    JsonMessage.parseTree (njson.objJ fl) = some m := by
  obtain ⟨mid, mkind, mts, mroom, mty, mpl⟩ := m
  by_cases h1 : mid = "" <;> by_cases h2 : mkind = "" <;> by_cases h3 : mts = "" <;>
    by_cases h4 : mroom = "" <;>
      simp_all [JsonMessage.parseTree, jsonValueString]

/-- C3 amended: the envelope round-trip holds for envelopes whose payload
is a flat list of pairs with unique, strictly ascending string keys and
scalar values (string, integer, double, boolean, null): then
`parse(serialize(E)) = E` exactly, the four optional envelope fields
surviving whether empty (omitted, then defaulted back to empty) or not.
Payload values that are nested kvs or lists do not survive (they come back
as null, see the counterexample), and unsorted payload keys come back in
`std::map` order. -/
theorem envelope_roundtrip (m : JsonMessage) (pairs : List (String × Token))
    (hp : m.payload = flatKvs pairs)
    (hscalar : ∀ p ∈ pairs, scalarToken p.2 = true)
    (hsorted : pairs.Pairwise (fun p q => cppStrLt p.1 q.1 = true))
    (hty : m.type ≠ "") :
    JsonMessage.parseTree (JsonMessage.serializeTree m) = some m := by
  have hpj' : nlohmannPayloadToKvs (wsKvsToNlohmann m.payload) = m.payload := by
    unfold wsKvsToNlohmann
    have hflat : wsKvsFlat [] m.payload = pairs.map (fun p => (p.1, wsTokenToNlohmann p.2)) := by
      rw [hp, wsKvsFlat_sorted pairs [] hsorted (fun a ha => absurd ha (List.not_mem_nil a))]
      rw [List.nil_append]
    rw [hflat]
    simp only [nlohmannPayloadToKvs]
    rw [payloadFields_map_inverse pairs hscalar, hp]
  refine parseTree_fields _ m (wsKvsToNlohmann m.payload) ?_ ?_ ?_ ?_ ?_ ?_ hpj' hty
  · rw [objLookup_objInsert_ne _ _ _ _ (by decide), objLookup_objInsert_ne _ _ _ _ (by decide),
      objLookup_condInsert_ne _ _ _ _ _ (by decide), objLookup_condInsert_ne _ _ _ _ _ (by decide),
      objLookup_condInsert_ne _ _ _ _ _ (by decide), objLookup_condInsert_self]
    simp [objLookup]
  · rw [objLookup_objInsert_ne _ _ _ _ (by decide), objLookup_objInsert_ne _ _ _ _ (by decide),
      objLookup_condInsert_ne _ _ _ _ _ (by decide), objLookup_condInsert_ne _ _ _ _ _ (by decide),
      objLookup_condInsert_self, objLookup_condInsert_ne _ _ _ _ _ (by decide)]
    simp [objLookup]
  · rw [objLookup_objInsert_ne _ _ _ _ (by decide), objLookup_objInsert_ne _ _ _ _ (by decide),
      objLookup_condInsert_ne _ _ _ _ _ (by decide), objLookup_condInsert_self,
      objLookup_condInsert_ne _ _ _ _ _ (by decide), objLookup_condInsert_ne _ _ _ _ _ (by decide)]
    simp [objLookup]
  · rw [objLookup_objInsert_ne _ _ _ _ (by decide), objLookup_objInsert_ne _ _ _ _ (by decide),
      objLookup_condInsert_self, objLookup_condInsert_ne _ _ _ _ _ (by decide),
      objLookup_condInsert_ne _ _ _ _ _ (by decide), objLookup_condInsert_ne _ _ _ _ _ (by decide)]
    simp [objLookup]
  · rw [objLookup_objInsert_ne _ _ _ _ (by decide)]
    exact objLookup_objInsert_self _ _ _
  · exact objLookup_objInsert_self _ _ _

/-- C3 counterexample: a valid envelope whose payload holds a
list-of-values does not round-trip — `parse(serialize(E))` succeeds but
returns the value replaced by null (`nlohmann_payload_to_kvs` maps arrays
and nested objects to the monostate placeholder). -/
theorem envelope_roundtrip_fails_on_list_value :
    JsonMessage.parseTree (JsonMessage.serializeTree
        { type := "t", payload := [Token.strV "k", Token.arrV []] }) =
      some { type := "t", payload := [Token.strV "k", Token.null] } ∧
    JsonMessage.parseTree (JsonMessage.serializeTree
        { type := "t", payload := [Token.strV "k", Token.arrV []] }) ≠
      some { type := "t", payload := [Token.strV "k", Token.arrV []] } := by
  constructor
  · rfl
  · intro h
    have hcollapse :
        (some { type := "t", payload := [Token.strV "k", Token.null] } :
          Option JsonMessage) =
        some { type := "t", payload := [Token.strV "k", Token.arrV []] } :=
      Eq.trans (by rfl) h
    simp [JsonMessage.mk.injEq] at hcollapse

/-- Witness for C3 (amended): a fully-populated envelope with sorted scalar
payload keys round-trips exactly. -/
theorem envelope_roundtrip_witness :
    JsonMessage.parseTree (JsonMessage.serializeTree
        { id := "i1", kind := "event", ts := "2025-01-01T00:00:00Z", room := "general",
          type := "chat.message",
          payload := flatKvs [("a", Token.intV 1), ("b", Token.strV "x")] }) =
      some { id := "i1", kind := "event", ts := "2025-01-01T00:00:00Z", room := "general",
             type := "chat.message",
             payload := flatKvs [("a", Token.intV 1), ("b", Token.strV "x")] } :=
  envelope_roundtrip _ [("a", Token.intV 1), ("b", Token.strV "x")] rfl (by decide)
    (by decide) (by decide)
